import Mathlib

/-!
Verification development for the nova network-address-allocation subsystem
(`nova/network/manager.py`).  The Python code is shallowly embedded: each
definition below mirrors one function (or a slice of one function) of the
source, with database rows modelled as structures, database side effects as
explicit state passing or action traces, and exceptions as `Except`.
-/

namespace Nova

/-! ## IPv4 CIDR model (netaddr.IPNetwork)

A CIDR block is its network address plus a prefix length.  `first`/`last`
give the address range; netaddr containment (`a in b`) includes equality.
All networks handled by `_do_create_networks` are network-aligned, since
they come from `IPNetwork.subnet` or from rows this code created.
-/

structure Cidr where
  first : Nat
  prefixlen : Nat
deriving DecidableEq, Repr

def Cidr.size (c : Cidr) : Nat := 2 ^ (32 - c.prefixlen)

def Cidr.lastAddr (c : Cidr) : Nat := c.first + c.size - 1

/-- Python `a in b` on netaddr IPNetworks: `b` contains `a` (equality included). -/
def cidrSubset (a b : Cidr) : Bool := decide (b.first ≤ a.first) && decide (a.lastAddr ≤ b.lastAddr)

/-- netaddr `subnet.next()`: the following block of the same prefix length. -/
def Cidr.nextBlock (c : Cidr) : Cidr := ⟨c.first + c.size, c.prefixlen⟩

/-- Two CIDR blocks overlap exactly when one contains the other. -/
def cidrOverlap (a b : Cidr) : Bool := cidrSubset a b || cidrSubset b a

def cidrDisjoint (a b : Cidr) : Bool := !(cidrOverlap a b)

/-! ## `NetworkManager._do_create_networks`, v4 collision-avoidance loop
(`manager.py` lines 1000-1042)

`find_next` advances past blocks currently in `subnets_v4`; its `while`
loop terminates because successive `next()` blocks are distinct, so a fuel
of `cur.length + 1` always suffices.
-/

def findNextLoop (cur : List Cidr) : Nat → Cidr → Option Cidr
  | 0, _ => none
  | fuel + 1, nxt => if nxt ∈ cur then findNextLoop cur fuel nxt.nextBlock else some nxt

/-- `find_next(subnet)`: first following block not among the current
candidates, provided it still lies inside the base block. -/
def find_next (subnet : Cidr) (cur : List Cidr) (base : Cidr) : Option Cidr :=
  match findNextLoop cur (cur.length + 1) subnet.nextBlock with
  | some nxt => if cidrSubset nxt base then some nxt else none
  | none => none

/-- The `for used_subnet in used_subnets` body for one candidate: raise on a
containing supernet, substitute (via `find_next`) past a contained smaller
cidr, and carry the possibly-substituted candidate through the remaining
used subnets.  `cur.erase` mirrors `subnets_v4.remove` (first occurrence). -/
def carveInnerLoop (base : Cidr) : Cidr → List Cidr → List Cidr → Except String (List Cidr)
  | _, cur, [] => .ok cur
  | subnet, cur, u :: rest =>
    if cidrSubset subnet u then
      .error "requested cidr conflicts with existing supernet"
    else if cidrSubset u subnet then
      match find_next subnet cur base with
      | some nxt => carveInnerLoop base nxt ((cur.erase subnet) ++ [nxt]) rest
      | none => .error "requested cidr conflicts with existing smaller cidr"
    else
      carveInnerLoop base subnet cur rest

/-- The `for subnet in list(subnets_v4)` loop: the snapshot is walked while
the live list `cur` is mutated; an exact match against an existing network
substitutes the next free block (or fails) before the containment checks. -/
def carveOuterLoop (base : Cidr) (used : List Cidr) : List Cidr → List Cidr → Except String (List Cidr)
  | [], cur => .ok cur
  | s :: rest, cur =>
    if s ∈ used then
      match find_next s cur base with
      | some nxt =>
        match carveInnerLoop base nxt ((cur.erase s) ++ [nxt]) used with
        | .ok cur2 => carveOuterLoop base used rest cur2
        | .error e => .error e
      | none => .error "cidr already in use"
    else
      match carveInnerLoop base s cur used with
      | .ok cur2 => carveOuterLoop base used rest cur2
      | .error e => .error e

/-- The collision-avoidance step of `_do_create_networks` for a v4 cidr:
`cands` are the freshly carved candidate subnets, `used` the cidrs of all
networks already in the database. -/
def doCreateNetworksCarveV4 (base : Cidr) (cands used : List Cidr) : Except String (List Cidr) :=
  carveOuterLoop base used cands cands

/-! ## Reserved-address counts and `_create_fixed_ips`
(`manager.py` lines 1118-1149 and 1746-1755)
-/

/-- `NetworkManager._bottom_reserved_ips`: network address and gateway. -/
def flatBottomReservedIps : Nat := 2

/-- `NetworkManager._top_reserved_ips`: broadcast address. -/
def flatTopReservedIps : Nat := 1

/-- `VlanManager._bottom_reserved_ips`: the parent count plus the vpn server. -/
def vlanBottomReservedIps : Nat := flatBottomReservedIps + 1

/-- `VlanManager._top_reserved_ips`: the parent count plus `cnt_vpn_clients`. -/
def vlanTopReservedIps (cntVpnClients : Nat) : Nat := flatTopReservedIps + cntVpnClients

structure FixedIpRow where
  network_id : Nat
  address : Nat
  reserved : Bool
deriving DecidableEq, Repr

/-- `NetworkManager._create_fixed_ips`: one row per address of the block,
reserved exactly when `index < bottom_reserved or num_ips - index <= top_reserved`. -/
def createFixedIps (networkId : Nat) (fixedCidr : Cidr) (bottom top : Nat) : List FixedIpRow :=
  let numIps := fixedCidr.size
  (List.range numIps).map fun index =>
    { network_id := networkId
      address := fixedCidr.first + index
      reserved := decide (index < bottom) || decide (numIps - index ≤ top) }

/-! ## Host routing: `RPCAllocateFixedIP` (`manager.py` lines 180-248)

Hosts are identifiers; `none` models an unset `network.host` / a `None`
caller host.  `elect` models `network_rpcapi.set_network_host` (electing
and persisting a host), `serviceUp` the
`service_get_by_host_and_topic` + `servicegroup_api.service_is_up` check.
-/

abbrev Host := Nat

structure Network where
  id : Nat
  multi_host : Bool
  host : Option Host
deriving DecidableEq, Repr

inductive FixedIpDispatch where
  | localAllocate (networkId : Nat)
  | rpcAllocate (networkId : Nat) (host : Host)
deriving DecidableEq, Repr

/-- Per-network host resolution inside `_allocate_fixed_ips`:
`if not network.multi_host: host = network.host`, then
`if host is None: host = set_network_host(...)`. -/
def resolveHost (elect : Network → Host) (h : Option Host) (n : Network) : Host :=
  match (if n.multi_host then h else n.host) with
  | none => elect n
  | some x => x

/-- `RPCAllocateFixedIP._allocate_fixed_ips`: the loop over the batch.  The
`host` variable is a single mutable local threaded through the iterations,
so each iteration starts from the value the previous one left behind. -/
def allocateFixedIpsBatch (selfHost : Host) (elect : Network → Host) :
    Option Host → List Network → List FixedIpDispatch
  | _, [] => []
  | h, n :: rest =>
    let resolved := resolveHost elect h n
    let d := if resolved ≠ selfHost then FixedIpDispatch.rpcAllocate n.id resolved
             else FixedIpDispatch.localAllocate n.id
    d :: allocateFixedIpsBatch selfHost elect (some resolved) rest

inductive DeallocDispatch where
  | localDealloc (teardown : Bool)
  | rpcDealloc (host : Option Host)
deriving DecidableEq, Repr

/-- `RPCAllocateFixedIP.deallocate_fixed_ip`: resolve the host (no election
happens here), deallocate locally when it is this host, deallocate locally
without teardown when a multi-host target service is absent or down, and
otherwise forward by RPC. -/
def rpcDeallocateFixedIp (selfHost : Host) (serviceUp : Option Host → Bool)
    (callerHost : Option Host) (n : Network) : DeallocDispatch :=
  let h := if n.multi_host then callerHost else n.host
  if h = some selfHost then .localDealloc true
  else if n.multi_host && !(serviceUp h) then .localDealloc false
  else .rpcDealloc h

/-! ## `NetworkManager.add_virtual_interface` (`manager.py` lines 701-715)

`gen i` is the `i`-th random MAC drawn by `utils.generate_mac_address`
(the initial draw plus one regeneration per uniqueness violation);
`virtual_interface_create` fails exactly when the MAC is already present.
-/

structure Vif where
  address : Nat
  instance_uuid : Nat
  network_id : Nat
deriving DecidableEq, Repr

inductive VifCreateResult where
  | created (db : List Vif) (attempts : Nat)
  | macExhausted (db : List Vif) (attempts : Nat)
deriving DecidableEq, Repr

def VifCreateResult.attemptCount : VifCreateResult → Nat
  | .created _ n => n
  | .macExhausted _ n => n

def VifCreateResult.dbOut : VifCreateResult → List Vif
  | .created db _ => db
  | .macExhausted db _ => db

/-- Uniqueness violation: the MAC is already taken by some VIF row. -/
def vifAddressTaken (db : List Vif) (mac : Nat) : Bool := db.any fun v => decide (v.address = mac)

/-- The `for i in xrange(create_unique_mac_address_attempts)` loop, with its
`else` branch: on exhaustion delete every VIF row of the instance and fail. -/
def addVifAttemptLoop (gen : Nat → Nat) (inst netId : Nat) :
    Nat → Nat → Nat → List Vif → VifCreateResult
  | 0, _, tried, db => .macExhausted (db.filter fun v => decide (v.instance_uuid ≠ inst)) tried
  | fuel + 1, i, tried, db =>
    if vifAddressTaken db (gen i) then addVifAttemptLoop gen inst netId fuel (i + 1) (tried + 1) db
    else .created (db ++ [⟨gen i, inst, netId⟩]) (tried + 1)

def add_virtual_interface (gen : Nat → Nat) (attempts : Nat) (db : List Vif)
    (inst netId : Nat) : VifCreateResult :=
  addVifAttemptLoop gen inst netId attempts 0 0 db

/-! ## Fixed-IP rows and the lease/release callbacks
(`manager.py` lines 854-886)

`Except.error` models a raised `NovaException`; the `Bool` paired with a
successful result records whether a warning was logged.
-/

structure FixedIp where
  instance_uuid : Option Nat
  virtual_interface_id : Option Nat
  allocated : Bool
  leased : Bool
  updated_at : Nat
deriving DecidableEq, Repr

/-- `db.fixed_ip_disassociate`: detach the address from its instance. -/
def fixedIpDisassociate (fip : FixedIp) : FixedIp := { fip with instance_uuid := none }

/-- `NetworkManager.lease_fixed_ip`: raises when the address is not
associated; otherwise sets `leased` (stamping `updated_at`) and warns when
the address is not allocated. -/
def lease_fixed_ip (now : Nat) (fip : FixedIp) : Except Unit (FixedIp × Bool) :=
  match fip.instance_uuid with
  | none => .error ()
  | some _ => .ok ({ fip with leased := true, updated_at := now }, !fip.allocated)

/-- `NetworkManager.release_fixed_ip`: raises when the address is not
associated; warns when it was not leased; clears `leased` and, when the
address is not allocated, disassociates it from its instance. -/
def release_fixed_ip (fip : FixedIp) : Except Unit (FixedIp × Bool) :=
  match fip.instance_uuid with
  | none => .error ()
  | some _ =>
    let warned := !fip.leased
    let fip1 := { fip with leased := false }
    if fip.allocated then .ok (fip1, warned) else .ok (fixedIpDisassociate fip1, warned)

/-! ## `NetworkManager.deallocate_fixed_ip` (`manager.py` lines 804-852)

The function is modelled as the updated fixed-IP row plus the ordered trace
of its side effects.  `vifGet` models `db.virtual_interface_get`,
`dnsZoneOk` the `_validate_instance_zone_for_dns_domain` outcome.
-/

structure VifRow where
  address : Nat
deriving DecidableEq, Repr

inductive DeallocAction where
  | securityRefresh
  | dnsEntriesDeleted
  | clearFixedIp
  | logVifMissing
  | releaseDhcp (mac : Nat)
  | teardownNetworkOnHost
deriving DecidableEq, Repr

/-- The side effects of `deallocate_fixed_ip` that precede the teardown
branch: security-group refresh, DNS record removal (when the zone check
passes), and the row update clearing `allocated` and the VIF link. -/
def deallocPre (dnsZoneOk : Bool) : List DeallocAction :=
  [DeallocAction.securityRefresh]
    ++ (if dnsZoneOk then [DeallocAction.dnsEntriesDeleted] else [])
    ++ [DeallocAction.clearFixedIp]

def deallocate_fixed_ip (forceDhcpRelease : Bool) (vifGet : Nat → Option VifRow)
    (dnsZoneOk : Bool) (fip : FixedIp) (teardown : Bool) : FixedIp × List DeallocAction :=
  let fip2 := { fip with allocated := false, virtual_interface_id := none }
  if teardown then
    if forceDhcpRelease then
      match fip.virtual_interface_id with
      | none => (fip2, deallocPre dnsZoneOk ++ [.logVifMissing])
      | some vid =>
        match vifGet vid with
        | none => (fip2, deallocPre dnsZoneOk ++ [.logVifMissing])
        | some vif =>
          (fip2, deallocPre dnsZoneOk ++ [.releaseDhcp vif.address, .teardownNetworkOnHost])
    else (fip2, deallocPre dnsZoneOk ++ [.teardownNetworkOnHost])
  else (fip2, deallocPre dnsZoneOk)

/-! ## `FlatManager` deallocation and the stale-IP task
(`manager.py` lines 342-352, 1358, 1376-1380)
-/

/-- `FlatManager.deallocate_fixed_ip`: the base deallocation followed by an
immediate `db.fixed_ip_disassociate`. -/
def flat_deallocate_fixed_ip (forceDhcpRelease : Bool) (vifGet : Nat → Option VifRow)
    (dnsZoneOk : Bool) (fip : FixedIp) (teardown : Bool) : FixedIp × List DeallocAction :=
  let r := deallocate_fixed_ip forceDhcpRelease vifGet dnsZoneOk fip teardown
  (fixedIpDisassociate r.1, r.2)

/-- `NetworkManager.timeout_fixed_ips` class attribute. -/
def baseTimeoutFixedIps : Bool := true

/-- `FlatManager.timeout_fixed_ips` class attribute. -/
def flatTimeoutFixedIps : Bool := false

/-- `NetworkManager._disassociate_stale_fixed_ips` periodic task: returns
the addresses it disassociates, given those whose `allocated=false` has
outlasted the timeout. -/
def disassociateStaleFixedIps (timeoutFixedIps : Bool) (staleCandidates : List Nat) : List Nat :=
  if timeoutFixedIps then staleCandidates else []

/-! ## `_do_create_networks` persistence loop (`manager.py` lines 1044-1101)

`createSafe index` models whether `db.network_create_safe` actually creates
a row for the `index`-th subnet (it returns nothing-created when a network
with that cidr or cidr_v6 already exists).  On success the loop records,
per created network, whether `_create_fixed_ips` backfilled it
(`network and cidr and subnet_v4`).
-/

structure NetCandidate where
  subnet_v4 : Option Cidr
  subnet_v6 : Option Cidr
deriving DecidableEq, Repr

def createNetworksPersistLoop (createSafe : Nat → Bool) (hasCidr : Bool) :
    Nat → List NetCandidate → Except Unit (List (Nat × Bool))
  | _, [] => .ok []
  | index, c :: rest =>
    if createSafe index then
      match createNetworksPersistLoop createSafe hasCidr (index + 1) rest with
      | .ok nets => .ok ((index, hasCidr && c.subnet_v4.isSome) :: nets)
      | .error e => .error e
    else .error ()

/-! ## `build_network_info_model` bandwidth cap
(`manager.py` lines 579-583 and 624-626)

`none` models a missing/None `network.rxtx_base` or `rxtx_factor` (the
`TypeError`/`KeyError` path).  The field is attached to the VIF dict only
when `if rxtx_cap:` finds it truthy.
-/

def computeRxtxCap (rxtxBase rxtxFactor : Option Int) : Option Int :=
  match rxtxBase, rxtxFactor with
  | some b, some f => some (b * f)
  | _, _ => none

/-- The `rxtx_cap` entry of the emitted VIF: present exactly when the
computed cap is truthy (non-`None` and nonzero). -/
def vifRxtxCapField (rxtxBase rxtxFactor : Option Int) : Option Int :=
  match computeRxtxCap rxtxBase rxtxFactor with
  | some c => if c = 0 then none else some c
  | none => none

/-! # Theorems -/

/-- A CIDR block contains itself. -/
theorem cidrSubset_self (c : Cidr) : cidrSubset c c = true := by
  simp [cidrSubset]

/-- Disjoint blocks contain each other in neither direction. -/
theorem cidrDisjoint_subsets (a b : Cidr) (h : cidrDisjoint a b = true) :
    cidrSubset a b = false ∧ cidrSubset b a = false := by
  simpa [cidrDisjoint, cidrOverlap] using h

/-- A candidate disjoint from every used subnet passes the inner containment
loop untouched. -/
theorem carveInnerLoop_disjoint (base : Cidr) (s : Cidr) (cur : List Cidr) (used : List Cidr)
    (h : ∀ u ∈ used, cidrDisjoint s u = true) :
    carveInnerLoop base s cur used = .ok cur := by
  induction used with
  | nil => rfl
  | cons u rest ih =>
    obtain ⟨h1, h2⟩ := cidrDisjoint_subsets s u (h u (List.mem_cons_self u rest))
    rw [carveInnerLoop, if_neg (by simp [h1]), if_neg (by simp [h2])]
    exact ih fun v hv => h v (List.mem_cons_of_mem u hv)

/-- Candidates all disjoint from every used subnet leave the carving loop
state untouched. -/
theorem carveOuterLoop_disjoint (base : Cidr) (used : List Cidr) (cands : List Cidr)
    (h : ∀ c ∈ cands, ∀ u ∈ used, cidrDisjoint c u = true) :
    ∀ cur, carveOuterLoop base used cands cur = .ok cur := by
  induction cands with
  | nil => intro cur; rfl
  | cons s rest ih =>
    intro cur
    have hs : s ∉ used := by
      intro hmem
      have hd := h s (List.mem_cons_self s rest) s hmem
      simp [cidrDisjoint, cidrOverlap, cidrSubset_self] at hd
    have hinner := carveInnerLoop_disjoint base s cur used (h s (List.mem_cons_self s rest))
    rw [carveOuterLoop, if_neg hs, hinner]
    exact ih (fun c hc u hu => h c (List.mem_cons_of_mem s hc) u hu) cur

/-- C1 (amended): when every carved candidate subnet is disjoint from every
existing network cidr loaded at call time, the collision-avoidance loop of
`_do_create_networks` succeeds and returns the candidates unchanged — so in
that case every returned subnet is disjoint from every existing network.
When a candidate does collide, the code substitutes the next following
subnet only for an exact match or for a candidate containing an existing
network (a candidate contained in an existing supernet raises immediately),
and a substituted subnet is re-checked only against the existing networks
not yet visited, so the returned list may overlap an earlier-listed
existing network (see `carve_substituted_subnet_overlaps_existing`). -/
theorem carve_disjoint_candidates_pass (base : Cidr) (cands used : List Cidr)
    (h : ∀ c ∈ cands, ∀ u ∈ used, cidrDisjoint c u = true) :
    doCreateNetworksCarveV4 base cands used = .ok cands :=
  carveOuterLoop_disjoint base used cands h cands

/-- Witness for `carve_disjoint_candidates_pass` at a concrete input: two
/24 candidates and one disjoint existing /24 inside a /22 base block. -/
theorem carve_disjoint_candidates_pass_witness :
    doCreateNetworksCarveV4 ⟨0, 22⟩ [⟨0, 24⟩, ⟨256, 24⟩] [⟨512, 24⟩] =
      .ok [⟨0, 24⟩, ⟨256, 24⟩] :=
  carve_disjoint_candidates_pass ⟨0, 22⟩ [⟨0, 24⟩, ⟨256, 24⟩] [⟨512, 24⟩] (by decide)

/-- C1 counterexample: base block 10.0.0.0/22 (addresses 0..1023 of the
block, so 10.0.0.0/24 is ⟨0, 24⟩, 10.0.1.0/25 is ⟨256, 25⟩), one candidate
10.0.0.0/24, existing networks [10.0.1.0/25, 10.0.0.0/25].  The candidate
collides with 10.0.0.0/25 (checked second), is substituted by 10.0.1.0/24,
and the substitute is re-checked against no earlier-listed network: the
call returns 10.0.1.0/24, which contains the existing network 10.0.1.0/25,
refuting the claim that every returned subnet is disjoint from every
existing network cidr. -/
theorem carve_substituted_subnet_overlaps_existing :
    doCreateNetworksCarveV4 ⟨0, 22⟩ [⟨0, 24⟩] [⟨256, 25⟩, ⟨0, 25⟩] = .ok [⟨256, 24⟩] ∧
    (⟨256, 25⟩ : Cidr) ∈ [(⟨256, 25⟩ : Cidr), ⟨0, 25⟩] ∧
    cidrDisjoint ⟨256, 24⟩ ⟨256, 25⟩ = false ∧
    cidrSubset ⟨256, 25⟩ ⟨256, 24⟩ = true :=
  ⟨rfl, List.mem_cons_self _ _, rfl, rfl⟩

/-- Filtering `List.range` agrees with filtering `Finset.range`. -/
theorem length_filter_range (n : Nat) (p : Nat → Bool) :
    ((List.range n).filter p).length = ((Finset.range n).filter (fun i => p i = true)).card := by
  induction n with
  | zero => simp
  | succ k ih =>
    rw [List.range_succ, List.filter_append, List.length_append, Finset.range_succ,
        Finset.filter_insert]
    by_cases h : p k = true
    · rw [if_pos h, Finset.card_insert_of_not_mem (by simp), ← ih]
      simp [h]
    · rw [if_neg h, ← ih]
      simp [h]

/-- The reserved indices of a block of `n` addresses are the bottom `bottom`
and the top `top` of them. -/
theorem card_reserved_range (n bottom top : Nat) (h : bottom + top ≤ n) :
    ((Finset.range n).filter
        (fun i => (decide (i < bottom) || decide (n - i ≤ top)) = true)).card = bottom + top := by
  have hset : (Finset.range n).filter
        (fun i => (decide (i < bottom) || decide (n - i ≤ top)) = true)
      = Finset.range bottom ∪ Finset.Ico (n - top) n := by
    ext i
    simp only [Finset.mem_filter, Finset.mem_range, Finset.mem_union, Finset.mem_Ico,
      Bool.or_eq_true, decide_eq_true_eq]
    omega
  have hdisj : Disjoint (Finset.range bottom) (Finset.Ico (n - top) n) := by
    rw [Finset.disjoint_left]
    intro a ha hb
    rw [Finset.mem_range] at ha
    rw [Finset.mem_Ico] at hb
    omega
  rw [hset, Finset.card_union_of_disjoint hdisj, Finset.card_range, Nat.card_Ico]
  omega

/-- The unreserved indices form the middle `n - bottom - top` of the block. -/
theorem card_unreserved_range (n bottom top : Nat) (h : bottom + top ≤ n) :
    ((Finset.range n).filter
        (fun i => (!(decide (i < bottom) || decide (n - i ≤ top))) = true)).card
      = n - bottom - top := by
  have hset : (Finset.range n).filter
        (fun i => (!(decide (i < bottom) || decide (n - i ≤ top))) = true)
      = Finset.Ico bottom (n - top) := by
    ext i
    simp only [Finset.mem_filter, Finset.mem_range, Finset.mem_Ico, Bool.not_eq_true',
      Bool.or_eq_false_iff, decide_eq_false_iff_not]
    omega
  rw [hset, Nat.card_Ico]
  omega

/-- C2: the fixed-IP backfill of a newly created v4 network creates one row
per address of the block; exactly the bottom `bottom` and top `top`
addresses are reserved (everything else is not), so the reserved rows number
`bottom + top` and the allocatable remainder `networkSize - bottom - top`,
where `bottom = 2`, `top = 1` for the Flat/FlatDHCP managers and
`bottom = 3`, `top = 1 + cnt_vpn_clients` for the VLAN manager. -/
theorem create_fixed_ips_reservation (networkId : Nat) (fixedCidr : Cidr)
    (cntVpnClients bottom top : Nat) (hsize : bottom + top ≤ fixedCidr.size) :
    (createFixedIps networkId fixedCidr bottom top).length = fixedCidr.size ∧
    ((createFixedIps networkId fixedCidr bottom top).filter (fun r => r.reserved)).length
        = bottom + top ∧
    ((createFixedIps networkId fixedCidr bottom top).filter (fun r => !r.reserved)).length
        = fixedCidr.size - bottom - top ∧
    (∀ r ∈ createFixedIps networkId fixedCidr bottom top,
        r.reserved = (decide (r.address - fixedCidr.first < bottom)
          || decide (fixedCidr.size - top ≤ r.address - fixedCidr.first))) ∧
    flatBottomReservedIps = 2 ∧ flatTopReservedIps = 1 ∧
    vlanBottomReservedIps = 3 ∧ vlanTopReservedIps cntVpnClients = 1 + cntVpnClients := by
  refine ⟨?_, ?_, ?_, ?_, rfl, rfl, rfl, rfl⟩
  · simp [createFixedIps]
  · rw [createFixedIps, List.filter_map, List.length_map, length_filter_range]
    have := card_reserved_range fixedCidr.size bottom top hsize
    convert this using 2 with i
  · rw [createFixedIps, List.filter_map, List.length_map, length_filter_range]
    have := card_unreserved_range fixedCidr.size bottom top hsize
    convert this using 2 with i
  · intro r hr
    rw [createFixedIps] at hr
    simp only [List.mem_map, List.mem_range] at hr
    obtain ⟨i, hi, rfl⟩ := hr
    simp only [Nat.add_sub_cancel_left]
    have h2 : (decide (fixedCidr.size - i ≤ top)) = (decide (fixedCidr.size - top ≤ i)) :=
      decide_eq_decide.mpr (by omega)
    rw [h2]

/-- Witness for `create_fixed_ips_reservation`: a /28 block (16 addresses)
with the VLAN counts for `cnt_vpn_clients = 1`. -/
theorem create_fixed_ips_reservation_witness :
    (createFixedIps 7 ⟨0, 28⟩ 3 2).length = Cidr.size ⟨0, 28⟩ ∧
    ((createFixedIps 7 ⟨0, 28⟩ 3 2).filter (fun r => r.reserved)).length = 3 + 2 ∧
    ((createFixedIps 7 ⟨0, 28⟩ 3 2).filter (fun r => !r.reserved)).length
        = Cidr.size ⟨0, 28⟩ - 3 - 2 ∧
    (∀ r ∈ createFixedIps 7 ⟨0, 28⟩ 3 2,
        r.reserved = (decide (r.address - Cidr.first ⟨0, 28⟩ < 3)
          || decide (Cidr.size ⟨0, 28⟩ - 2 ≤ r.address - Cidr.first ⟨0, 28⟩))) ∧
    flatBottomReservedIps = 2 ∧ flatTopReservedIps = 1 ∧
    vlanBottomReservedIps = 3 ∧ vlanTopReservedIps 1 = 1 + 1 :=
  create_fixed_ips_reservation 7 ⟨0, 28⟩ 1 3 2 (by decide)

/-- C3 counterexample: local host 0, caller-supplied host 0, batch of a
non-multi-host network (id 1, host 1) followed by a multi-host network
(id 2).  The first iteration overwrites the threaded `host` variable with
1, so the multi-host network is dispatched by RPC to host 1 even though the
caller-supplied host equals the local host — refuting the claim that a
`multi_host=true` network always uses the caller-supplied host. -/
theorem allocate_batch_overwrites_caller_host :
    allocateFixedIpsBatch 0 (fun _ => 99) (some 0) [⟨1, false, some 1⟩, ⟨2, true, some 0⟩]
        = [FixedIpDispatch.rpcAllocate 1 1, FixedIpDispatch.rpcAllocate 2 1] ∧
    (⟨2, true, some 0⟩ : Network).multi_host = true ∧
    FixedIpDispatch.localAllocate 2
        ∉ allocateFixedIpsBatch 0 (fun _ => 99) (some 0)
            [⟨1, false, some 1⟩, ⟨2, true, some 0⟩] :=
  ⟨rfl, rfl, by decide⟩

/-- C3 (amended): in the allocation batch the `host` value is threaded
through the loop — each network resolves its host from `network.host` when
`multi_host=false` and from the current threaded value when
`multi_host=true` (initially the caller-supplied host, thereafter the
previous iteration's resolved host), electing a host when the value is
unset; the operation runs in-process exactly when the resolved host equals
the local host, and is dispatched by RPC to the resolved host otherwise.
In the deallocation path no election happens (an unset host is forwarded
as-is), and a multi-host target whose service is down is handled locally
(see `multi_host_service_down_local_no_teardown`). -/
theorem host_routing_resolution (selfHost : Host) (elect : Network → Host)
    (su : Option Host → Bool) (h : Option Host) (c : Host) (n : Network)
    (rest : List Network) :
    allocateFixedIpsBatch selfHost elect h (n :: rest) =
      (if resolveHost elect h n = selfHost then FixedIpDispatch.localAllocate n.id
       else FixedIpDispatch.rpcAllocate n.id (resolveHost elect h n))
        :: allocateFixedIpsBatch selfHost elect (some (resolveHost elect h n)) rest
    ∧ (n.multi_host = false → n.host = some c → resolveHost elect h n = c)
    ∧ (n.multi_host = false → n.host = none → resolveHost elect h n = elect n)
    ∧ (n.multi_host = true → h = some c → resolveHost elect h n = c)
    ∧ (n.multi_host = true → h = none → resolveHost elect h n = elect n)
    ∧ (n.multi_host = false → n.host = some selfHost →
        rpcDeallocateFixedIp selfHost su h n = DeallocDispatch.localDealloc true)
    ∧ (n.multi_host = false → n.host = none →
        rpcDeallocateFixedIp selfHost su h n = DeallocDispatch.rpcDealloc none)
    ∧ (n.multi_host = true → h = some c → c ≠ selfHost → su (some c) = true →
        rpcDeallocateFixedIp selfHost su h n = DeallocDispatch.rpcDealloc (some c)) := by
  refine ⟨?_, ?_, ?_, ?_, ?_, ?_, ?_, ?_⟩
  · rw [allocateFixedIpsBatch]
    by_cases hr : resolveHost elect h n = selfHost <;> simp [hr]
  · intro hm hh; simp [resolveHost, hm, hh]
  · intro hm hh; simp [resolveHost, hm, hh]
  · intro hm hh; simp [resolveHost, hm, hh]
  · intro hm hh; simp [resolveHost, hm, hh]
  · intro hm hh; simp [rpcDeallocateFixedIp, hm, hh]
  · intro hm hh; simp [rpcDeallocateFixedIp, hm, hh]
  · intro hm hh hne hup; simp [rpcDeallocateFixedIp, hm, hh, hne, hup]

/-- The MAC-allocation loop issues at most `tried + fuel` create attempts. -/
theorem addVifAttemptLoop_count_le (gen : Nat → Nat) (inst netId : Nat) :
    ∀ fuel i tried db,
      (addVifAttemptLoop gen inst netId fuel i tried db).attemptCount ≤ tried + fuel := by
  intro fuel
  induction fuel with
  | zero => intro i tried db; simp [addVifAttemptLoop, VifCreateResult.attemptCount]
  | succ f ih =>
    intro i tried db
    rw [addVifAttemptLoop]
    by_cases hT : vifAddressTaken db (gen i) = true
    · rw [if_pos hT]
      have := ih (i + 1) (tried + 1) db
      omega
    · rw [if_neg hT]
      simp [VifCreateResult.attemptCount]

/-- When every generated MAC collides, the loop exhausts its fuel. -/
theorem addVifAttemptLoop_all_taken (gen : Nat → Nat) (inst netId : Nat) :
    ∀ fuel i tried db, (∀ j, j < fuel → vifAddressTaken db (gen (i + j)) = true) →
      addVifAttemptLoop gen inst netId fuel i tried db =
        .macExhausted (db.filter fun v => decide (v.instance_uuid ≠ inst)) (tried + fuel) := by
  intro fuel
  induction fuel with
  | zero => intro i tried db _; simp [addVifAttemptLoop]
  | succ f ih =>
    intro i tried db h
    have h0 : vifAddressTaken db (gen i) = true := by simpa using h 0 (by omega)
    rw [addVifAttemptLoop, if_pos h0]
    have hrec := ih (i + 1) (tried + 1) db (fun j hj => by
      have h2 := h (j + 1) (by omega)
      rw [show i + 1 + j = i + (j + 1) from by omega]
      exact h2)
    rw [hrec]
    congr 1
    omega

/-- On exhaustion the returned database is the rollback: every VIF row of
the instance removed. -/
theorem addVifAttemptLoop_exhausted_db (gen : Nat → Nat) (inst netId : Nat) :
    ∀ fuel i tried db db2 tr2,
      addVifAttemptLoop gen inst netId fuel i tried db = .macExhausted db2 tr2 →
      db2 = db.filter fun v => decide (v.instance_uuid ≠ inst) := by
  intro fuel
  induction fuel with
  | zero =>
    intro i tried db db2 tr2 h
    rw [addVifAttemptLoop] at h
    injection h with h1 h2
    exact h1.symm
  | succ f ih =>
    intro i tried db db2 tr2 h
    rw [addVifAttemptLoop] at h
    by_cases hT : vifAddressTaken db (gen i) = true
    · rw [if_pos hT] at h
      exact ih (i + 1) (tried + 1) db db2 tr2 h
    · rw [if_neg hT] at h
      exact absurd h (by simp)

/-- The first non-colliding MAC (after `k` collisions) is persisted on
attempt `k + 1`. -/
theorem addVifAttemptLoop_first_free (gen : Nat → Nat) (inst netId : Nat) :
    ∀ fuel i tried db k, k < fuel →
      (∀ j, j < k → vifAddressTaken db (gen (i + j)) = true) →
      vifAddressTaken db (gen (i + k)) = false →
      addVifAttemptLoop gen inst netId fuel i tried db =
        .created (db ++ [⟨gen (i + k), inst, netId⟩]) (tried + k + 1) := by
  intro fuel
  induction fuel with
  | zero => intro i tried db k hk; omega
  | succ f ih =>
    intro i tried db k hk hprev hfree
    cases k with
    | zero =>
      rw [addVifAttemptLoop, if_neg (by simp at hfree ⊢; simpa using hfree)]
      simp
    | succ k2 =>
      have h0 : vifAddressTaken db (gen i) = true := by simpa using hprev 0 (by omega)
      rw [addVifAttemptLoop, if_pos h0]
      have hrec := ih (i + 1) (tried + 1) db k2 (by omega)
        (fun j hj => by
          have h2 := hprev (j + 1) (by omega)
          rw [show i + 1 + j = i + (j + 1) from by omega]
          exact h2)
        (by
          rw [show i + 1 + k2 = i + (k2 + 1) from by omega]
          exact hfree)
      rw [hrec]
      rw [show i + 1 + k2 = i + (k2 + 1) from by omega]
      congr 1
      omega

/-- C4: `add_virtual_interface` issues at most
`create_unique_mac_address_attempts` persistence attempts, regenerating the
MAC after each uniqueness violation (attempt `j` uses the `j`-th generated
MAC); when every attempt collides it deletes all VIF rows of the instance
(none survive in the result) and fails with the dedicated MAC-exhaustion
error (`macExhausted`); the first free MAC is persisted instead. -/
theorem add_virtual_interface_retries_and_rollback (gen : Nat → Nat) (attempts : Nat)
    (db : List Vif) (inst netId k : Nat) :
    (add_virtual_interface gen attempts db inst netId).attemptCount ≤ attempts
    ∧ ((∀ i, i < attempts → vifAddressTaken db (gen i) = true) →
        add_virtual_interface gen attempts db inst netId =
          .macExhausted (db.filter fun v => decide (v.instance_uuid ≠ inst)) attempts)
    ∧ (∀ db2 tr2, add_virtual_interface gen attempts db inst netId = .macExhausted db2 tr2 →
        ∀ v ∈ db2, v.instance_uuid ≠ inst)
    ∧ (k < attempts → (∀ j, j < k → vifAddressTaken db (gen j) = true) →
        vifAddressTaken db (gen k) = false →
        add_virtual_interface gen attempts db inst netId =
          .created (db ++ [⟨gen k, inst, netId⟩]) (k + 1)) := by
  refine ⟨?_, ?_, ?_, ?_⟩
  · simpa using addVifAttemptLoop_count_le gen inst netId attempts 0 0 db
  · intro h
    have := addVifAttemptLoop_all_taken gen inst netId attempts 0 0 db
      (fun j hj => by simpa using h j hj)
    simpa [add_virtual_interface] using this
  · intro db2 tr2 hres v hv
    have hdb := addVifAttemptLoop_exhausted_db gen inst netId attempts 0 0 db db2 tr2 hres
    subst hdb
    have := (List.mem_filter.mp hv).2
    simpa using this
  · intro hk hprev hfree
    have := addVifAttemptLoop_first_free gen inst netId attempts 0 0 db k hk
      (fun j hj => by simpa using hprev j hj) (by simpa using hfree)
    simpa [add_virtual_interface] using this

/-- C5 counterexample: an address that was never allocated has no
associated instance, and releasing (or leasing) it makes the callback raise
(`NovaException`, modelled `Except.error`) instead of merely warning —
refuting the claim that both callbacks only warn on unexpected state. -/
theorem release_unassociated_raises :
    release_fixed_ip ⟨none, none, false, false, 0⟩ = .error () ∧
    lease_fixed_ip 5 ⟨none, none, false, false, 0⟩ = .error () :=
  ⟨rfl, rfl⟩

/-- C5 (amended): `lease` sets `leased=true` and `release` sets
`leased=false`; `release` additionally disassociates the address from its
instance when `allocated=false`; leasing a not-allocated address and
releasing a never-leased address only warn (the `Bool` in the result); but
leasing or releasing an address associated with no instance raises a fatal
"not associated" error rather than warning. -/
theorem lease_release_transitions (fip : FixedIp) (now u : Nat) :
    (fip.instance_uuid = none →
        lease_fixed_ip now fip = .error () ∧ release_fixed_ip fip = .error ())
    ∧ (fip.instance_uuid = some u →
        lease_fixed_ip now fip =
          .ok ({ fip with leased := true, updated_at := now }, !fip.allocated))
    ∧ (fip.instance_uuid = some u → fip.allocated = true →
        release_fixed_ip fip = .ok ({ fip with leased := false }, !fip.leased))
    ∧ (fip.instance_uuid = some u → fip.allocated = false →
        release_fixed_ip fip =
          .ok ({ fip with leased := false, instance_uuid := none }, !fip.leased)) := by
  refine ⟨?_, ?_, ?_, ?_⟩
  · intro h
    constructor
    · simp [lease_fixed_ip, h]
    · simp [release_fixed_ip, h]
  · intro h
    simp [lease_fixed_ip, h]
  · intro h ha
    simp [release_fixed_ip, h, ha]
  · intro h ha
    simp [release_fixed_ip, fixedIpDisassociate, h, ha]

/-- C6: with `teardown=true` and `force_dhcp_release` set, a missing VIF
link on the fixed-IP row, or a missing VIF row, makes `deallocate_fixed_ip`
log an error and return normally — after the row update clearing
`allocated` and the VIF link (`clearFixedIp` is in the preceding trace) and
without running the topology teardown; when the VIF data is present the
forced DHCP release packet precedes the topology-specific teardown in the
trace. -/
theorem deallocate_missing_vif_short_circuits (vifGet : Nat → Option VifRow)
    (dz : Bool) (fip : FixedIp) (vid : Nat) (vif : VifRow) :
    (fip.virtual_interface_id = none →
        deallocate_fixed_ip true vifGet dz fip true =
          ({ fip with allocated := false, virtual_interface_id := none },
            deallocPre dz ++ [DeallocAction.logVifMissing]))
    ∧ (fip.virtual_interface_id = some vid → vifGet vid = none →
        deallocate_fixed_ip true vifGet dz fip true =
          ({ fip with allocated := false, virtual_interface_id := none },
            deallocPre dz ++ [DeallocAction.logVifMissing]))
    ∧ (fip.virtual_interface_id = some vid → vifGet vid = some vif →
        deallocate_fixed_ip true vifGet dz fip true =
          ({ fip with allocated := false, virtual_interface_id := none },
            deallocPre dz ++ [DeallocAction.releaseDhcp vif.address,
              DeallocAction.teardownNetworkOnHost]))
    ∧ DeallocAction.clearFixedIp ∈ deallocPre dz
    ∧ DeallocAction.teardownNetworkOnHost ∉ deallocPre dz ++ [DeallocAction.logVifMissing] := by
  refine ⟨?_, ?_, ?_, ?_, ?_⟩
  · intro h
    simp [deallocate_fixed_ip, h]
  · intro h hg
    simp [deallocate_fixed_ip, h, hg]
  · intro h hg
    simp [deallocate_fixed_ip, h, hg]
  · cases dz <;> simp [deallocPre]
  · cases dz <;> simp [deallocPre]
/-- C7: the persistence loop of `_do_create_networks` fails (fatal
"Network already exists!") exactly when `network_create_safe` returns
nothing-created for some subnet it reaches — never silently skipping it —
and on success every candidate subnet yields a created network, backfilled
with fixed-IP rows exactly when a v4 cidr was supplied and the network has
a v4 subnet. -/
theorem create_networks_persist_fatal_and_backfill (createSafe : Nat → Bool) (hasCidr : Bool) :
    ∀ (cands : List NetCandidate) (idx : Nat),
    (createNetworksPersistLoop createSafe hasCidr idx cands = .error ()
        ↔ ∃ k, k < cands.length ∧ createSafe (idx + k) = false)
    ∧ (∀ nets, createNetworksPersistLoop createSafe hasCidr idx cands = .ok nets →
        nets.length = cands.length ∧
        ∀ i, i < cands.length →
          nets.getD i (0, false)
            = (idx + i, hasCidr && ((cands.getD i ⟨none, none⟩).subnet_v4).isSome)) := by
  intro cands
  induction cands with
  | nil =>
    intro idx
    constructor
    · constructor
      · intro h; exact absurd h (by simp [createNetworksPersistLoop])
      · rintro ⟨k, hk, _⟩; simp at hk
    · intro nets h
      rw [createNetworksPersistLoop] at h
      injection h with h1
      subst h1
      exact ⟨rfl, by intro i hi; simp at hi⟩
  | cons c rest ih =>
    intro idx
    constructor
    · by_cases hc : createSafe idx = true
      · rw [createNetworksPersistLoop, if_pos hc]
        rcases hrec : createNetworksPersistLoop createSafe hasCidr (idx + 1) rest with e | nets
        · cases e
          simp only [hrec]
          constructor
          · intro _
            obtain ⟨k, hk, hf⟩ := ((ih (idx + 1)).1).mp hrec
            refine ⟨k + 1, by simpa using hk, ?_⟩
            rw [show idx + (k + 1) = idx + 1 + k from by omega]
            exact hf
          · intro _; trivial
        · simp only [hrec]
          constructor
          · intro h; exact absurd h (by simp)
          · rintro ⟨k, hk, hf⟩
            cases k with
            | zero => rw [Nat.add_zero] at hf; rw [hf] at hc; cases hc
            | succ k2 =>
              have : createNetworksPersistLoop createSafe hasCidr (idx + 1) rest = .error () :=
                ((ih (idx + 1)).1).mpr ⟨k2, by simpa using hk, by
                  rw [show idx + 1 + k2 = idx + (k2 + 1) from by omega]; exact hf⟩
              rw [this] at hrec
              cases hrec
      · rw [createNetworksPersistLoop, if_neg hc]
        constructor
        · intro _
          exact ⟨0, by simp, by simpa using (Bool.not_eq_true _).mp hc⟩
        · intro _; trivial
    · intro nets h
      by_cases hc : createSafe idx = true
      · rw [createNetworksPersistLoop, if_pos hc] at h
        rcases hrec : createNetworksPersistLoop createSafe hasCidr (idx + 1) rest with e | nets2
        · rw [hrec] at h; cases h
        · rw [hrec] at h
          injection h with h1
          subst h1
          obtain ⟨hlen, hget⟩ := (ih (idx + 1)).2 nets2 hrec
          refine ⟨by simpa using hlen, ?_⟩
          intro i hi
          cases i with
          | zero => simp
          | succ i2 =>
            rw [List.getD_cons_succ, List.getD_cons_succ]
            have := hget i2 (by simpa using hi)
            rw [this]
            congr 1
            omega
      · rw [createNetworksPersistLoop, if_neg hc] at h
        cases h
/-- C8 counterexample: `rxtx_base = 0` and `rxtx_factor = 3` are both set
and the computed cap is `0`, yet `if rxtx_cap:` is falsy, so the `rxtx_cap`
field is absent — refuting "present exactly when both sides are set". -/
theorem rxtx_cap_zero_product_absent :
    computeRxtxCap (some 0) (some 3) = some 0 ∧ vifRxtxCapField (some 0) (some 3) = none :=
  ⟨rfl, rfl⟩

/-- C8 (amended): the `rxtx_cap` field equals
`network.rxtx_base * rxtx_factor` and is present exactly when both sides
are set and the product is nonzero (Python truthiness of `if rxtx_cap:`);
it is absent when either side is unset or the product is zero. -/
theorem rxtx_cap_field_characterization (b f : Int) (ob of : Option Int) :
    (vifRxtxCapField (some b) (some f) = if b * f = 0 then none else some (b * f))
    ∧ vifRxtxCapField none of = none
    ∧ vifRxtxCapField ob none = none := by
  refine ⟨?_, ?_, ?_⟩
  · simp [vifRxtxCapField, computeRxtxCap]
  · rfl
  · cases ob <;> rfl

/-- On every path `deallocate_fixed_ip` leaves the row with `allocated`
cleared and the VIF link removed. -/
theorem deallocate_fixed_ip_fst (force : Bool) (vifGet : Nat → Option VifRow) (dz : Bool)
    (fip : FixedIp) (teardown : Bool) :
    (deallocate_fixed_ip force vifGet dz fip teardown).1
      = { fip with allocated := false, virtual_interface_id := none } := by
  rw [deallocate_fixed_ip]
  cases teardown <;> cases force <;> simp
  cases h : fip.virtual_interface_id <;> simp
  cases vifGet _ <;> simp

/-- C9: `FlatManager.deallocate_fixed_ip` always ends with the address
disassociated from its instance (returned to the free pool in the same
call), and `FlatManager.timeout_fixed_ips = false` disables the periodic
stale-fixed-IP reclamation (which runs for the base manager), so a
deallocated Flat address never waits for a DHCP release callback or the
disassociation timeout. -/
theorem flat_deallocate_immediate_disassociate (force : Bool) (vifGet : Nat → Option VifRow)
    (dz : Bool) (fip : FixedIp) (teardown : Bool) (stale : List Nat) :
    (flat_deallocate_fixed_ip force vifGet dz fip teardown).1.instance_uuid = none
    ∧ (flat_deallocate_fixed_ip force vifGet dz fip teardown).1.allocated = false
    ∧ (flat_deallocate_fixed_ip force vifGet dz fip teardown).1.virtual_interface_id = none
    ∧ flatTimeoutFixedIps = false
    ∧ disassociateStaleFixedIps flatTimeoutFixedIps stale = []
    ∧ disassociateStaleFixedIps baseTimeoutFixedIps stale = stale := by
  refine ⟨?_, ?_, ?_, rfl, rfl, rfl⟩
  · simp [flat_deallocate_fixed_ip, fixedIpDisassociate]
  · simp [flat_deallocate_fixed_ip, fixedIpDisassociate, deallocate_fixed_ip_fst]
  · simp [flat_deallocate_fixed_ip, fixedIpDisassociate, deallocate_fixed_ip_fst]

/-- C10: when `deallocate_fixed_ip` of the host-routed managers resolves a
`multi_host=true` network to a non-local authoritative host whose network
service is absent or down, the deallocation runs locally with
`teardown=false` instead of being forwarded by RPC; and a `teardown=false`
deallocation frees the address (clears `allocated`) while running no device
teardown and sending no DHCP release. -/
theorem multi_host_service_down_local_no_teardown (selfHost : Host) (su : Option Host → Bool)
    (h : Option Host) (c : Host) (n : Network) (vifGet : Nat → Option VifRow)
    (force dz : Bool) (fip : FixedIp) :
    (n.multi_host = true → h = some c → c ≠ selfHost → su (some c) = false →
        rpcDeallocateFixedIp selfHost su h n = DeallocDispatch.localDealloc false)
    ∧ (deallocate_fixed_ip force vifGet dz fip false).1.allocated = false
    ∧ DeallocAction.teardownNetworkOnHost ∉ (deallocate_fixed_ip force vifGet dz fip false).2
    ∧ (∀ m, DeallocAction.releaseDhcp m ∉ (deallocate_fixed_ip force vifGet dz fip false).2) := by
  refine ⟨?_, ?_, ?_, ?_⟩
  · intro hm hh hne hdown
    simp [rpcDeallocateFixedIp, hm, hh, hne, hdown]
  · simp [deallocate_fixed_ip_fst]
  · rw [deallocate_fixed_ip]
    cases dz <;> simp [deallocPre]
  · intro m
    rw [deallocate_fixed_ip]
    cases dz <;> simp [deallocPre]

end Nova
